import Mathlib

/-!
Reverse TCP tunnel relay: port allocator, registration, session cleanup, control dispatch.

A shallow embedding of `internal/server/server.go`, `internal/client/client.go`
and `pkg/protocol/protocol.go`.

Modelling conventions.

* Go `int` values (ports) are `Int`; port numbers are far from the 64-bit limits, so no
  wrap-around is modelled.
* A socket (`net.Conn`) and a listener (`net.Listener`) are handles (`Nat`); whether a handle
  has been closed is recorded in the state (`closedConns`, `closedListeners`), closing a
  handle twice leaves it closed.
* A Go `map[K]V` is an association list with at most one entry per key.
* `*clientConnection` is an address into `heap` (the objects ever allocated by
  `handleClientRegistration`), so a task that still holds the pointer of a session that was
  removed from `clients` keeps acting on that object, as in the source.
* Results of blocking calls (decode, listen, accept, read, write, encode) are inputs.
* `sent` is the trace of records handed to the JSON encoder of a connection and `written` the
  trace of byte slices handed to `Write` of a socket, both in program order.
-/

namespace Tun

/-! ## pkg/protocol -/

def MessageTypeConnect : String := "connect"
def MessageTypeData : String := "data"
def MessageTypeDisconnect : String := "disconnect"
def MessageTypePing : String := "ping"
def MessageTypePong : String := "pong"

abbrev Byte := Fin 256

structure RegistrationRequest where
  LocalHost : String
  LocalPort : Int
deriving DecidableEq, Repr

structure RegistrationResponse where
  Success : Bool
  PublicPort : Int := 0
  Error : String := ""
deriving DecidableEq, Repr

/-- The control message; `Data = none` is the nil slice (`Type_` is the field `Type`). -/
structure ClientMessage where
  Type_ : String
  UserID : String := ""
  Data : Option (List Byte) := none
deriving DecidableEq, Repr

/-- What a peer decodes into a fresh `ClientMessage` after the record went through
`json.Encoder`: the tag `omitempty` on `data` drops a slice of length 0, which the
decoder leaves nil (`user_id` empty stays empty, `type` is always present). -/
def wire (m : ClientMessage) : ClientMessage :=
  match m.Data with
  | some [] => { m with Data := none }
  | _ => m

/-! ## Go maps -/

def mapGet {K V : Type} [DecidableEq K] (k : K) : List (K × V) → Option V
  | [] => none
  | (k', v) :: rest => if k' = k then some v else mapGet k rest

def mapDelete {K V : Type} [DecidableEq K] (k : K) (m : List (K × V)) : List (K × V) :=
  m.filter (fun e => decide (e.1 ≠ k))

def mapSet {K V : Type} [DecidableEq K] (k : K) (v : V) (m : List (K × V)) : List (K × V) :=
  (k, v) :: mapDelete k m

def mapKeys {K V : Type} (m : List (K × V)) : List K := m.map Prod.fst

/-! ## Sockets -/

abbrev Conn := Nat
abbrev Listener := Nat

/-- Mark a handle closed. -/
def closeHandle (h : Nat) (closed : List Nat) : List Nat :=
  if h ∈ closed then closed else h :: closed

/-! ## internal/server -/

structure clientConnection where
  conn : Conn
  targetHost : String
  targetPort : Int
  userConns : List (String × Conn)
deriving DecidableEq, Repr

inductive Packet where
  | response (r : RegistrationResponse)
  | message (m : ClientMessage)
deriving DecidableEq, Repr

structure RelayServer where
  registrationPort : Int
  availablePorts : List Int
  clients : List (Int × Nat)
  heap : List clientConnection := []
  listener : Option Listener := none
  shutdownClosed : Bool := false
  closedConns : List Conn := []
  closedListeners : List Listener := []
  sent : List (Conn × Packet) := []
  written : List (Conn × List Byte) := []
deriving DecidableEq, Repr

/-- The loop `for port := minPort; port <= maxPort; port++ { append }`; the first argument
bounds the number of iterations. -/
def newPortsLoop (maxPort : Int) : Nat → Int → List Int → List Int
  | 0, _, acc => acc
  | fuel + 1, port, acc =>
    if port ≤ maxPort then newPortsLoop maxPort fuel (port + 1) (acc ++ [port]) else acc

deriving instance DecidableEq for Except

/-- The constructor `NewRelayServer`; `make([]int, 0, maxPort-minPort+1)` panics when the
capacity is negative. -/
def NewRelayServer (registrationPort minPort maxPort : Int) : Except String RelayServer :=
  if maxPort - minPort + 1 < 0 then .error "makeslice: cap out of range"
  else
    .ok { registrationPort := registrationPort
          availablePorts := newPortsLoop maxPort (maxPort - minPort + 1).toNat minPort []
          clients := [] }

def closeConn (s : RelayServer) (c : Conn) : RelayServer :=
  { s with closedConns := closeHandle c s.closedConns }

def closeListener (s : RelayServer) (l : Listener) : RelayServer :=
  { s with closedListeners := closeHandle l s.closedListeners }

def encode (s : RelayServer) (c : Conn) (p : Packet) : RelayServer :=
  { s with sent := s.sent ++ [(c, p)] }

def allocatePort (s : RelayServer) : RelayServer × Except String Int :=
  match s.availablePorts with
  | [] => (s, .error "no available ports")
  | port :: rest => ({ s with availablePorts := rest }, .ok port)

def releasePort (s : RelayServer) (port : Int) : RelayServer :=
  { s with availablePorts := s.availablePorts ++ [port] }

/-- The body of `for _, conn := range client.userConns { conn.Close() }`. -/
def closeAll (s : RelayServer) : List (String × Conn) → RelayServer
  | [] => s
  | (_, c) :: rest => closeAll (closeConn s c) rest

def cleanupClient (s : RelayServer) (port : Int) (listener : Option Listener) : RelayServer :=
  let s1 := match listener with
    | some l => closeListener s l
    | none => s
  match mapGet port s1.clients with
  | none => s1
  | some ptr =>
    match s1.heap[ptr]? with
    | none => s1 -- every pointer stored in `clients` is allocated, see `ptrs_valid`
    | some client =>
      let s2 := closeConn s1 client.conn
      let s3 := closeAll s2 client.userConns
      let s4 := { s3 with clients := mapDelete port s3.clients }
      releasePort s4 port

def sendErrorResponse (s : RelayServer) (conn : Conn) (message : String) : RelayServer :=
  encode s conn (.response { Success := false, Error := message })

/-- Results of the blocking calls of one registration: the decoded request (`none` is a decode
error), the listener `net.Listen` returns for the allocated port (`none` is a bind error), and
whether encoding the success response succeeds. -/
structure RegEnv where
  decoded : Option RegistrationRequest
  listen : Option Listener
  encodeOk : Bool
deriving DecidableEq, Repr

/-- The two tasks started for a session: `handleClientCommunication(port, client)` and
`acceptUserConnections(port, listener, client)`. -/
structure Spawned where
  port : Int
  client : Nat
  listener : Listener
deriving DecidableEq, Repr

def handleClientRegistration (s : RelayServer) (conn : Conn) (env : RegEnv) :
    RelayServer × Option Spawned :=
  match env.decoded with
  | none => (closeConn (sendErrorResponse s conn "Invalid request format") conn, none)
  | some req =>
    if req.LocalPort ≤ 0 then
      (closeConn (sendErrorResponse s conn "Invalid local port specified") conn, none)
    else
      match allocatePort s with
      | (s1, .error err) => (closeConn (sendErrorResponse s1 conn err) conn, none)
      | (s1, .ok port) =>
        match env.listen with
        | none =>
          let s2 := releasePort s1 port
          (closeConn (sendErrorResponse s2 conn ("Failed to bind to port " ++ toString port)) conn,
            none)
        | some listener =>
          let client : clientConnection :=
            { conn := conn, targetHost := req.LocalHost, targetPort := req.LocalPort,
              userConns := [] }
          let ptr := s1.heap.length
          let s2 := { s1 with heap := s1.heap ++ [client], clients := mapSet port ptr s1.clients }
          let s3 := encode s2 conn (.response { Success := true, PublicPort := port })
          if env.encodeOk then (s3, some { port := port, client := ptr, listener := listener })
          else (cleanupClient s3 port (some listener), none)

/-- One iteration of the loop of `handleClientCommunication`: either the decoder fails
(EOF or a decode error), or it yields a message; `ioOk` is the result of the one `Write` or
`Encode` the branch may perform. -/
inductive CtrlEvent where
  | decodeErr (eof : Bool)
  | recv (msg : ClientMessage) (ioOk : Bool)
deriving DecidableEq, Repr

/-- Assign the user table of the object at address `client`. -/
def setUserConns (s : RelayServer) (client : Nat) (t : List (String × Conn)) : RelayServer :=
  match s.heap[client]? with
  | none => s
  | some c => { s with heap := s.heap.set client { c with userConns := t } }

/-- The user table of the object at address `client`. -/
def userConnsOf (s : RelayServer) (client : Nat) : List (String × Conn) :=
  match s.heap[client]? with
  | none => []
  | some c => c.userConns

/-- The control socket of the object at address `client`. -/
def connOf (s : RelayServer) (client : Nat) : Conn :=
  match s.heap[client]? with
  | none => 0
  | some c => c.conn

/-- One loop iteration of `handleClientCommunication(port, client)`; the flag tells whether the
loop goes on (`true`) or the function has returned (`false`). -/
def controlStep (s : RelayServer) (port : Int) (client : Nat) : CtrlEvent → RelayServer × Bool
  | .decodeErr _ => (cleanupClient s port none, false)
  | .recv msg ioOk =>
    if msg.Type_ = MessageTypeData then
      if msg.UserID = "" ∨ msg.Data = none then (s, true)
      else
        match mapGet msg.UserID (userConnsOf s client) with
        | none => (s, true)
        | some userConn =>
          let s1 := { s with written := s.written ++ [(userConn, msg.Data.getD [])] }
          if ioOk then (s1, true)
          else
            let s2 := closeConn s1 userConn
            (setUserConns s2 client (mapDelete msg.UserID (userConnsOf s2 client)), true)
    else if msg.Type_ = MessageTypePing then
      (encode s (connOf s client) (.message { Type_ := MessageTypePong }), true)
    else if msg.Type_ = MessageTypeDisconnect then
      (cleanupClient s port none, false)
    else (s, true)

/-- The function `handleClientCommunication(port, client)` run on the events its decoder
yields; when the events run out before the function returns, the task is blocked in
`Decode` (flag `true`). -/
def handleClientCommunication (s : RelayServer) (port : Int) (client : Nat) :
    List CtrlEvent → RelayServer × Bool
  | [] => (s, true)
  | ev :: rest =>
    match controlStep s port client ev with
    | (s1, true) => handleClientCommunication s1 port client rest
    | (s1, false) => (s1, false)

/-- One `Accept` of the user acceptor: an error, or a connection with its remote address, the
clock reading used for the user id, and the result of encoding `connect`. -/
inductive AcceptEvent where
  | acceptErr
  | accepted (userConn : Conn) (userAddr : String) (nanos : Int) (encodeOk : Bool)
deriving DecidableEq, Repr

/-- The user id `fmt.Sprintf("%s-%d", userAddr, time.Now().UnixNano())`. -/
def mintUserID (userAddr : String) (nanos : Int) : String :=
  userAddr ++ "-" ++ toString nanos

/-- One loop iteration of `acceptUserConnections(port, listener, client)`; the result carries
whether the loop goes on and the user reader started, if any (`uid`, `userConn`). On return the
deferred `listener.Close()` runs. -/
def acceptStep (s : RelayServer) (_port : Int) (listener : Listener) (client : Nat) :
    AcceptEvent → RelayServer × Bool × Option (String × Conn)
  | .acceptErr =>
    if s.shutdownClosed then (closeListener s listener, false, none) else (s, true, none)
  | .accepted userConn userAddr nanos encodeOk =>
    let userID := mintUserID userAddr nanos
    let s1 := setUserConns s client (mapSet userID userConn (userConnsOf s client))
    let s2 := encode s1 (connOf s1 client)
      (.message { Type_ := MessageTypeConnect, UserID := userID })
    if encodeOk then (s2, true, some (userID, userConn))
    else (closeConn s2 userConn, true, none)

/-- One `Read` of the user reader: `ok chunk encodeOk` is a successful read of `chunk`
(`buffer[:n]`) followed by an `Encode` with the given result; `err` is EOF or a read error. -/
inductive ReadResult where
  | ok (chunk : List Byte) (encodeOk : Bool)
  | err
deriving DecidableEq, Repr

/-- The read loop of `handleUserData`; the flag tells whether the loop has returned. -/
def handleUserDataLoop (s : RelayServer) (client : Nat) (userID : String) :
    List ReadResult → RelayServer × Bool
  | [] => (s, false)
  | .err :: _ => (s, true)
  | .ok chunk encodeOk :: rest =>
    let s1 := encode s (connOf s client)
      (.message { Type_ := MessageTypeData, UserID := userID, Data := some chunk })
    if encodeOk then handleUserDataLoop s1 client userID rest else (s1, true)

/-- The function `handleUserData(port, client, userID, userConn)` on the given reads: the loop,
and once it has returned the deferred close, delete and `disconnect`. -/
def handleUserData (s : RelayServer) (_port : Int) (client : Nat) (userID : String)
    (userConn : Conn) (reads : List ReadResult) : RelayServer :=
  match handleUserDataLoop s client userID reads with
  | (s1, false) => s1
  | (s1, true) =>
    let s2 := closeConn s1 userConn
    let s3 := setUserConns s2 client (mapDelete userID (userConnsOf s2 client))
    encode s3 (connOf s3 client) (.message { Type_ := MessageTypeDisconnect, UserID := userID })

/-- The body of `for port, client := range s.clients` in `Shutdown`. -/
def shutdownClients (s : RelayServer) : List (Int × Nat) → RelayServer
  | [] => s
  | (_, ptr) :: rest =>
    shutdownClients (closeAll (closeConn s (connOf s ptr)) (userConnsOf s ptr)) rest

/-- The function `Shutdown`; closing the already closed channel `shutdown` panics. -/
def Shutdown (s : RelayServer) : Except String RelayServer :=
  if s.shutdownClosed then .error "close of closed channel"
  else
    let s1 := { s with shutdownClosed := true }
    let s2 := match s1.listener with
      | some l => closeListener s1 l
      | none => s1
    .ok (shutdownClients s2 s2.clients)

/-- A step of the server: a completed call of one of its functions, or one loop iteration of
one of its tasks. -/
inductive ServerOp where
  | register (conn : Conn) (env : RegEnv)
  | cleanup (port : Int) (listener : Option Listener)
  | control (port : Int) (client : Nat) (ev : CtrlEvent)
  | accept (port : Int) (listener : Listener) (client : Nat) (ev : AcceptEvent)
  | userData (port : Int) (client : Nat) (userID : String) (userConn : Conn)
      (reads : List ReadResult)
  | shutdown
deriving DecidableEq, Repr

/-- The state after a step; a `Shutdown` that panics ends the process and yields no new
state. -/
def applyOp (s : RelayServer) : ServerOp → RelayServer
  | .register conn env => (handleClientRegistration s conn env).1
  | .cleanup port listener => cleanupClient s port listener
  | .control port client ev => (controlStep s port client ev).1
  | .accept port listener client ev => (acceptStep s port listener client ev).1
  | .userData port client userID userConn reads =>
    handleUserData s port client userID userConn reads
  | .shutdown =>
    match Shutdown s with
    | .ok s1 => s1
    | .error _ => s

/-- The state after a sequence of steps. -/
def runOps (s : RelayServer) (ops : List ServerOp) : RelayServer :=
  ops.foldl applyOp s

/-! ## internal/client -/

/-- The tunnel client; `userConns` maps a user id to the socket `localConn` of its
`userConnection` (always set by `handleUserConnection`), `spawned` lists the user ids for which
`go c.handleUserConnection(uid)` was issued. -/
structure TunnelClient where
  relayHost : String
  relayPort : Int
  localHost : String
  localPort : Int
  conn : Option Conn := none
  publicPort : Int := 0
  userConns : List (String × Conn) := []
  shutdownClosed : Bool := false
  tickerStopped : Bool := false
  closedConns : List Conn := []
  sent : List (Conn × Packet) := []
  written : List (Conn × List Byte) := []
  spawned : List String := []
deriving DecidableEq, Repr

namespace TunnelClient

def closeConn (c : TunnelClient) (k : Conn) : TunnelClient :=
  { c with closedConns := closeHandle k c.closedConns }

/-- The body of `for _, uc := range c.userConns { uc.localConn.Close() }`. -/
def closeAll (c : TunnelClient) : List (String × Conn) → TunnelClient
  | [] => c
  | (_, k) :: rest => closeAll (closeConn c k) rest

/-- The function `Shutdown` up to its final `c.wg.Wait()`, which waits for the other tasks
and changes no field; closing the already closed channel `shutdown` panics. -/
def Shutdown (c : TunnelClient) : Except String TunnelClient :=
  if c.shutdownClosed then .error "close of closed channel"
  else
    let c1 := { c with shutdownClosed := true, tickerStopped := true }
    let c2 := match c1.conn with
      | some k =>
        closeConn { c1 with sent := c1.sent ++ [(k, .message { Type_ := MessageTypeDisconnect })] } k
      | none => c1
    .ok (closeAll c2 c2.userConns)

def closeUserConnection (c : TunnelClient) (userID : String) : TunnelClient :=
  match mapGet userID c.userConns with
  | none => c
  | some localConn =>
    { closeConn c localConn with userConns := mapDelete userID c.userConns }

/-- The function `forwardToLocalService(userID, data)`; `writeOk` is the result of `Write`. -/
def forwardToLocalService (c : TunnelClient) (userID : String) (data : List Byte)
    (writeOk : Bool) : TunnelClient :=
  match mapGet userID c.userConns with
  | none => c
  | some localConn =>
    let c1 := { c with written := c.written ++ [(localConn, data)] }
    if writeOk then c1 else closeUserConnection c1 userID

/-- The function `handleUserConnection(userID)` up to the start of its local reader; `dial` is
the result of `net.Dial` to the local service. -/
def handleUserConnection (c : TunnelClient) (userID : String) (dial : Option Conn) :
    TunnelClient :=
  match dial with
  | none => c
  | some localConn => { c with userConns := mapSet userID localConn c.userConns }

/-- One iteration of the loop of `handleRelayMessages`. -/
inductive RelayEvent where
  | decodeErr (eof : Bool)
  | recv (msg : ClientMessage) (writeOk : Bool)
deriving DecidableEq, Repr

/-- One loop iteration of `handleRelayMessages`; the flag tells whether the loop goes on. -/
def relayStep (c : TunnelClient) (ev : RelayEvent) : Except String (TunnelClient × Bool) :=
  if c.shutdownClosed then .ok (c, false)
  else
    match ev with
    | .decodeErr _ =>
      match Shutdown c with
      | .ok c1 => .ok (c1, false)
      | .error e => .error e
    | .recv msg writeOk =>
      if msg.Type_ = MessageTypeConnect then
        if msg.UserID = "" then .ok (c, true)
        else .ok ({ c with spawned := c.spawned ++ [msg.UserID] }, true)
      else if msg.Type_ = MessageTypeData then
        if msg.UserID = "" ∨ msg.Data = none then .ok (c, true)
        else .ok (forwardToLocalService c msg.UserID (msg.Data.getD []) writeOk, true)
      else if msg.Type_ = MessageTypeDisconnect then
        if msg.UserID = "" then .ok (c, true)
        else .ok (closeUserConnection c msg.UserID, true)
      else .ok (c, true)

/-- The function `handleRelayMessages` run on the events its decoder yields; when the events
run out before the function returns, the task is blocked in `Decode` (flag `true`). -/
def handleRelayMessages (c : TunnelClient) : List RelayEvent → Except String (TunnelClient × Bool)
  | [] => .ok (c, true)
  | ev :: rest =>
    match relayStep c ev with
    | .ok (c1, true) => handleRelayMessages c1 rest
    | .ok (c1, false) => .ok (c1, false)
    | .error e => .error e

/-- One `Read` of the local reader started by `handleUserConnection`: `ok chunk encodeOk` is a
successful read of `chunk` (`buffer[:n]`) followed by an `Encode` with the given result; `err`
is EOF (`eof = true`) or a read error. -/
inductive LocalRead where
  | ok (chunk : List Byte) (encodeOk : Bool)
  | err (eof : Bool)
deriving DecidableEq, Repr

/-- One loop iteration of the local reader (the goroutine at the end of
`handleUserConnection`) for `userID` and `localConn`; the flag tells whether the loop goes on.
Encoding on a nil `c.conn` panics. -/
def localReaderStep (c : TunnelClient) (userID : String) (_localConn : Conn) :
    LocalRead → Except String (TunnelClient × Bool)
  | ev =>
    if c.shutdownClosed then .ok (c, false)
    else
      match ev with
      | .err _ => .ok (closeUserConnection c userID, false)
      | .ok chunk encodeOk =>
        match c.conn with
        | none => .error "invalid memory address or nil pointer dereference"
        | some k =>
          let c1 := { c with sent := c.sent ++
            [(k, .message { Type_ := MessageTypeData, UserID := userID, Data := some chunk })] }
          if encodeOk then .ok (c1, true) else .ok (closeUserConnection c1 userID, false)

/-- The local reader run on the given reads; when the reads run out before the goroutine
returns, it is blocked in `Read` (flag `true`). -/
def localReader (c : TunnelClient) (userID : String) (localConn : Conn) :
    List LocalRead → Except String (TunnelClient × Bool)
  | [] => .ok (c, true)
  | ev :: rest =>
    match localReaderStep c userID localConn ev with
    | .ok (c1, true) => localReader c1 userID localConn rest
    | .ok (c1, false) => .ok (c1, false)
    | .error e => .error e

end TunnelClient

/-! ## Scenario states used as concrete inputs -/

/-- A server started with `--port 5678 --min-port 10000 --max-port 10000`
(`NewRelayServer 5678 10000 10000`, see `server0_eq`). -/
def server0 : RelayServer :=
  { registrationPort := 5678, availablePorts := [10000], clients := [] }

/-- A registration that succeeds: request for `localhost:3000` on socket 1, listener 7. -/
def regOk : RegEnv :=
  { decoded := some { LocalHost := "localhost", LocalPort := 3000 }, listen := some 7,
    encodeOk := true }

/-- The server after one successful registration. -/
def server1 : RelayServer := (handleClientRegistration server0 1 regOk).1

/-- The server after a user connection (socket 9) was accepted for the session. -/
def server2 : RelayServer :=
  (acceptStep server1 10000 7 0 (.accepted 9 "203.0.113.5:40000" 17 true)).1

/-- A client registered for `localhost:3000` on control socket 1 with one user connection. -/
def client1 : TunnelClient :=
  { relayHost := "localhost", relayPort := 5678, localHost := "localhost", localPort := 3000,
    conn := some 1, publicPort := 10000, userConns := [("203.0.113.5:40000-17", 4)] }

/-- A client as `client1` with a second user connection. -/
def client2 : TunnelClient :=
  { client1 with userConns := [("203.0.113.5:40000-17", 4), ("198.51.100.7:51000-23", 5)] }

/-- The client `client2` after one `Shutdown`: signal set, ticker stopped, `disconnect` handed
to the control socket 1, sockets 1, 4 and 5 closed. -/
def client2Down : TunnelClient :=
  { client2 with
    shutdownClosed := true
    tickerStopped := true
    closedConns := [5, 4, 1]
    sent := [(1, .message { Type_ := MessageTypeDisconnect })] }

/-- The server after the connect notification of an accepted user connection (socket 9)
failed. -/
def server3 : RelayServer :=
  (acceptStep server1 10000 7 0 (.accepted 9 "203.0.113.5:40000" 17 false)).1

/-! ## Invariant of the allocator state -/

/-- The free pool has no duplicate entry, no port of the pool is a key of `clients`, every
pointer stored in `clients` is allocated, and every port of `[minPort, maxPort]` is in the pool
or a key of `clients`. -/
structure PortInv (minPort maxPort : Int) (s : RelayServer) : Prop where
  nodup : s.availablePorts.Nodup
  disjoint : ∀ p, p ∈ s.availablePorts → p ∉ mapKeys s.clients
  ptrs_valid : ∀ port ptr, mapGet port s.clients = some ptr → ptr < s.heap.length
  cover : ∀ p, minPort ≤ p → p ≤ maxPort → p ∈ s.availablePorts ∨ p ∈ mapKeys s.clients

/-- The step leaves the pool, the clients map and the number of allocated objects alone. -/
def SameAlloc (s t : RelayServer) : Prop :=
  t.availablePorts = s.availablePorts ∧ t.clients = s.clients ∧ t.heap.length = s.heap.length

/-! ## Lemmas on maps and handles -/

theorem mem_closeHandle (h x : Nat) (l : List Nat) :
    x ∈ closeHandle h l ↔ x = h ∨ x ∈ l := by
  unfold closeHandle
  split
  · constructor
    · intro hx; exact Or.inr hx
    · rintro (rfl | hx)
      · assumption
      · exact hx
  · simp

theorem closeHandle_of_mem {h : Nat} {l : List Nat} (hm : h ∈ l) : closeHandle h l = l := by
  simp [closeHandle, hm]

theorem closeHandle_idem (h : Nat) (l : List Nat) :
    closeHandle h (closeHandle h l) = closeHandle h l :=
  closeHandle_of_mem ((mem_closeHandle h h l).2 (Or.inl rfl))

theorem mem_mapKeys_mapDelete {K V : Type} [DecidableEq K] (k p : K) (m : List (K × V)) :
    p ∈ mapKeys (mapDelete k m) ↔ p ∈ mapKeys m ∧ p ≠ k := by
  simp only [mapKeys, mapDelete, List.mem_map, List.mem_filter, decide_eq_true_eq]
  constructor
  · rintro ⟨e, ⟨he, hne⟩, rfl⟩
    exact ⟨⟨e, he, rfl⟩, hne⟩
  · rintro ⟨⟨e, he, rfl⟩, hne⟩
    exact ⟨e, ⟨he, hne⟩, rfl⟩

theorem mapGet_eq_none_iff {K V : Type} [DecidableEq K] (k : K) (m : List (K × V)) :
    mapGet k m = none ↔ k ∉ mapKeys m := by
  induction m with
  | nil => simp [mapGet, mapKeys]
  | cons e rest ih =>
    obtain ⟨k', v⟩ := e
    by_cases h : k' = k
    · simp [mapGet, mapKeys, h]
    · have h' : ¬ k = k' := fun e => h e.symm
      simp only [mapKeys] at ih
      simp [mapGet, mapKeys, h, h', ih]

theorem mapGet_isSome_of_mem {K V : Type} [DecidableEq K] {k : K} {m : List (K × V)}
    (h : k ∈ mapKeys m) : ∃ v, mapGet k m = some v := by
  cases hg : mapGet k m with
  | none => exact absurd h ((mapGet_eq_none_iff k m).1 hg)
  | some v => exact ⟨v, rfl⟩

theorem mapGet_mapDelete_self {K V : Type} [DecidableEq K] (k : K) (m : List (K × V)) :
    mapGet k (mapDelete k m) = none := by
  rw [mapGet_eq_none_iff, mem_mapKeys_mapDelete]
  exact fun h => h.2 rfl

theorem mapGet_mapDelete_ne {K V : Type} [DecidableEq K] {k p : K} (h : p ≠ k)
    (m : List (K × V)) : mapGet p (mapDelete k m) = mapGet p m := by
  induction m with
  | nil => simp [mapGet, mapDelete]
  | cons e rest ih =>
    obtain ⟨k', v⟩ := e
    simp only [mapDelete] at ih
    by_cases hk : k' = k
    · subst hk
      have hp : ¬ k' = p := fun e => h e.symm
      simp only [mapDelete, List.filter_cons, mapGet, hp, ne_eq, not_true_eq_false,
        decide_False, if_false, Bool.false_eq_true]
      exact ih
    · by_cases hp : k' = p
      · simp [mapGet, mapDelete, hk, hp, List.filter_cons]
        subst hp
        simp [hk, mapGet]
      · simp only [mapDelete, List.filter_cons, mapGet, hk, hp, ne_eq, not_false_eq_true,
          decide_True, if_true, if_false]
        exact ih

/-! ## Frame lemmas of the server primitives -/

@[simp] theorem closeAll_availablePorts (s : RelayServer) (t : List (String × Conn)) :
    (closeAll s t).availablePorts = s.availablePorts := by
  induction t generalizing s with
  | nil => rfl
  | cons e rest ih => obtain ⟨u, c⟩ := e; simp [closeAll, ih, closeConn]

@[simp] theorem closeAll_clients (s : RelayServer) (t : List (String × Conn)) :
    (closeAll s t).clients = s.clients := by
  induction t generalizing s with
  | nil => rfl
  | cons e rest ih => obtain ⟨u, c⟩ := e; simp [closeAll, ih, closeConn]

@[simp] theorem closeAll_heap (s : RelayServer) (t : List (String × Conn)) :
    (closeAll s t).heap = s.heap := by
  induction t generalizing s with
  | nil => rfl
  | cons e rest ih => obtain ⟨u, c⟩ := e; simp [closeAll, ih, closeConn]

@[simp] theorem closeAll_closedListeners (s : RelayServer) (t : List (String × Conn)) :
    (closeAll s t).closedListeners = s.closedListeners := by
  induction t generalizing s with
  | nil => rfl
  | cons e rest ih => obtain ⟨u, c⟩ := e; simp [closeAll, ih, closeConn]

@[simp] theorem closeAll_sent (s : RelayServer) (t : List (String × Conn)) :
    (closeAll s t).sent = s.sent := by
  induction t generalizing s with
  | nil => rfl
  | cons e rest ih => obtain ⟨u, c⟩ := e; simp [closeAll, ih, closeConn]

@[simp] theorem closeAll_shutdownClosed (s : RelayServer) (t : List (String × Conn)) :
    (closeAll s t).shutdownClosed = s.shutdownClosed := by
  induction t generalizing s with
  | nil => rfl
  | cons e rest ih => obtain ⟨u, c⟩ := e; simp [closeAll, ih, closeConn]

theorem closeListener_of_mem {s : RelayServer} {l : Listener} (h : l ∈ s.closedListeners) :
    closeListener s l = s := by
  simp [closeListener, closeHandle_of_mem h]

/-- The state after `cleanupClient` when the port is registered. -/
theorem cleanupClient_registered (s : RelayServer) (port : Int) (ptr : Nat)
    (client : clientConnection) (hget : mapGet port s.clients = some ptr)
    (hptr : s.heap[ptr]? = some client) :
    cleanupClient s port none =
      releasePort { closeAll (closeConn s client.conn) client.userConns with
        clients := mapDelete port s.clients } port := by
  simp [cleanupClient, hget, hptr, closeConn]

/-! ## The allocator invariant along the steps of the server -/

theorem SameAlloc.refl (s : RelayServer) : SameAlloc s s := ⟨rfl, rfl, rfl⟩

theorem SameAlloc.trans {s t u : RelayServer} (h1 : SameAlloc s t) (h2 : SameAlloc t u) :
    SameAlloc s u :=
  ⟨h2.1.trans h1.1, h2.2.1.trans h1.2.1, h2.2.2.trans h1.2.2⟩

theorem PortInv.of_sameAlloc {minPort maxPort : Int} {s t : RelayServer} (h : SameAlloc s t)
    (hs : PortInv minPort maxPort s) : PortInv minPort maxPort t := by
  obtain ⟨h1, h2, h3⟩ := h
  constructor
  · rw [h1]; exact hs.nodup
  · rw [h1, h2]; exact hs.disjoint
  · rw [h2, h3]; exact hs.ptrs_valid
  · rw [h1, h2]; exact hs.cover

theorem sameAlloc_closeConn (s : RelayServer) (c : Conn) : SameAlloc s (closeConn s c) :=
  ⟨rfl, rfl, rfl⟩

theorem sameAlloc_closeListener (s : RelayServer) (l : Listener) :
    SameAlloc s (closeListener s l) :=
  ⟨rfl, rfl, rfl⟩

theorem sameAlloc_encode (s : RelayServer) (c : Conn) (p : Packet) : SameAlloc s (encode s c p) :=
  ⟨rfl, rfl, rfl⟩

theorem sameAlloc_closeAll (s : RelayServer) (t : List (String × Conn)) :
    SameAlloc s (closeAll s t) :=
  ⟨by simp, by simp, by simp⟩

theorem sameAlloc_setUserConns (s : RelayServer) (client : Nat) (t : List (String × Conn)) :
    SameAlloc s (setUserConns s client t) := by
  unfold setUserConns
  split
  · exact SameAlloc.refl s
  · exact ⟨rfl, rfl, by simp⟩

theorem sameAlloc_acceptStep (s : RelayServer) (port : Int) (listener : Listener) (client : Nat)
    (ev : AcceptEvent) : SameAlloc s (acceptStep s port listener client ev).1 := by
  cases ev with
  | acceptErr =>
    simp only [acceptStep]
    split
    · exact sameAlloc_closeListener s listener
    · exact SameAlloc.refl s
  | accepted userConn userAddr nanos encodeOk =>
    simp only [acceptStep]
    have h2 := (sameAlloc_setUserConns s client
      (mapSet (mintUserID userAddr nanos) userConn (userConnsOf s client))).trans
      (sameAlloc_encode _ (connOf (setUserConns s client
        (mapSet (mintUserID userAddr nanos) userConn (userConnsOf s client))) client)
        (.message { Type_ := MessageTypeConnect, UserID := mintUserID userAddr nanos }))
    split
    · exact h2
    · exact h2.trans (sameAlloc_closeConn _ userConn)

theorem sameAlloc_handleUserDataLoop (client : Nat) (userID : String) (reads : List ReadResult) :
    ∀ s : RelayServer, SameAlloc s (handleUserDataLoop s client userID reads).1 := by
  induction reads with
  | nil => intro s; exact SameAlloc.refl s
  | cons r rest ih =>
    intro s
    cases r with
    | err => exact SameAlloc.refl s
    | ok chunk encodeOk =>
      simp only [handleUserDataLoop]
      split
      · exact (sameAlloc_encode s _ _).trans (ih _)
      · exact sameAlloc_encode s _ _

theorem sameAlloc_handleUserData (s : RelayServer) (port : Int) (client : Nat) (userID : String)
    (userConn : Conn) (reads : List ReadResult) :
    SameAlloc s (handleUserData s port client userID userConn reads) := by
  have h := sameAlloc_handleUserDataLoop client userID reads s
  unfold handleUserData
  split
  · rename_i s1 heq
    rw [heq] at h
    exact h
  · rename_i s1 heq
    rw [heq] at h
    exact ((h.trans (sameAlloc_closeConn s1 userConn)).trans
      (sameAlloc_setUserConns _ client _)).trans (sameAlloc_encode _ _ _)

theorem sameAlloc_shutdownClients (m : List (Int × Nat)) :
    ∀ s : RelayServer, SameAlloc s (shutdownClients s m) := by
  induction m with
  | nil => intro s; exact SameAlloc.refl s
  | cons e rest ih =>
    intro s
    obtain ⟨port, ptr⟩ := e
    exact ((sameAlloc_closeConn s _).trans (sameAlloc_closeAll _ _)).trans (ih _)

theorem sameAlloc_Shutdown (s t : RelayServer) (h : Shutdown s = .ok t) : SameAlloc s t := by
  unfold Shutdown at h
  split at h
  · cases h
  · cases hl : s.listener with
    | none =>
      simp only [hl] at h
      cases h
      exact (show SameAlloc s { s with shutdownClosed := true } from ⟨rfl, rfl, rfl⟩).trans
        (sameAlloc_shutdownClients _ _)
    | some l =>
      simp only [hl] at h
      cases h
      exact ((show SameAlloc s { s with shutdownClosed := true } from ⟨rfl, rfl, rfl⟩).trans
        (sameAlloc_closeListener _ l)).trans (sameAlloc_shutdownClients _ _)

/-- What `cleanupClient` does to the pool, the clients map and the objects. -/
theorem cleanupClient_alloc (s : RelayServer) (port : Int) (listener : Option Listener) :
    (∃ ptr client, mapGet port s.clients = some ptr ∧ s.heap[ptr]? = some client ∧
        (cleanupClient s port listener).availablePorts = s.availablePorts ++ [port] ∧
        (cleanupClient s port listener).clients = mapDelete port s.clients ∧
        (cleanupClient s port listener).heap = s.heap) ∨
      ((mapGet port s.clients = none ∨ ∃ ptr, mapGet port s.clients = some ptr ∧
          s.heap[ptr]? = none) ∧ SameAlloc s (cleanupClient s port listener)) := by
  cases hg : mapGet port s.clients with
  | none =>
    right
    refine ⟨Or.inl rfl, ?_⟩
    cases listener <;> simp [cleanupClient, closeListener, hg, SameAlloc]
  | some ptr =>
    cases hp : s.heap[ptr]? with
    | none =>
      right
      refine ⟨Or.inr ⟨ptr, rfl, hp⟩, ?_⟩
      cases listener <;> simp [cleanupClient, closeListener, hg, hp, SameAlloc]
    | some client =>
      left
      refine ⟨ptr, client, rfl, hp, ?_⟩
      cases listener <;> simp [cleanupClient, closeListener, hg, hp, releasePort, closeConn]

theorem mem_mapKeys_of_mapGet {K V : Type} [DecidableEq K] {k : K} {v : V} {m : List (K × V)}
    (h : mapGet k m = some v) : k ∈ mapKeys m := by
  by_contra hk
  rw [(mapGet_eq_none_iff k m).2 hk] at h
  cases h

theorem PortInv.cleanupClient {minPort maxPort : Int} {s : RelayServer}
    (hs : PortInv minPort maxPort s) (port : Int) (listener : Option Listener) :
    PortInv minPort maxPort (cleanupClient s port listener) := by
  rcases cleanupClient_alloc s port listener with ⟨ptr, client, hg, _, h1, h2, h3⟩ | ⟨_, h⟩
  · have hkey : port ∈ mapKeys s.clients := mem_mapKeys_of_mapGet hg
    have hnot : port ∉ s.availablePorts := fun hp => hs.disjoint port hp hkey
    constructor
    · rw [h1, List.nodup_append]
      refine ⟨hs.nodup, List.nodup_singleton port, ?_⟩
      intro a ha hb
      rw [List.mem_singleton] at hb
      exact hnot (hb ▸ ha)
    · intro p hp
      rw [h2, mem_mapKeys_mapDelete]
      rw [h1, List.mem_append, List.mem_singleton] at hp
      rintro ⟨hk, hne⟩
      rcases hp with hp | hp
      · exact hs.disjoint p hp hk
      · exact hne hp
    · intro q ptr' hq
      rw [h2] at hq
      rw [h3]
      by_cases hqp : q = port
      · subst hqp
        rw [mapGet_mapDelete_self] at hq
        cases hq
      · rw [mapGet_mapDelete_ne hqp] at hq
        exact hs.ptrs_valid q ptr' hq
    · intro p hlo hhi
      rw [h1, h2, List.mem_append, List.mem_singleton, mem_mapKeys_mapDelete]
      by_cases hpp : p = port
      · exact Or.inl (Or.inr hpp)
      · rcases hs.cover p hlo hhi with hp | hp
        · exact Or.inl (Or.inl hp)
        · exact Or.inr ⟨hp, hpp⟩
  · exact hs.of_sameAlloc h

theorem controlStep_alloc (s : RelayServer) (port : Int) (client : Nat) (ev : CtrlEvent) :
    (controlStep s port client ev).1 = cleanupClient s port none ∨
      SameAlloc s (controlStep s port client ev).1 := by
  cases ev with
  | decodeErr eof => exact Or.inl rfl
  | recv msg ioOk =>
    simp only [controlStep]
    split
    · right
      split
      · exact SameAlloc.refl s
      · split
        · exact SameAlloc.refl s
        · rename_i userConn _
          have h1 : SameAlloc s { s with written := s.written ++ [(userConn, msg.Data.getD [])] } :=
            ⟨rfl, rfl, rfl⟩
          split
          · exact h1
          · exact (h1.trans (sameAlloc_closeConn _ userConn)).trans
              (sameAlloc_setUserConns _ client _)
    · split
      · exact Or.inr (sameAlloc_encode s _ _)
      · split
        · exact Or.inl rfl
        · exact Or.inr (SameAlloc.refl s)

theorem PortInv.controlStep {minPort maxPort : Int} {s : RelayServer}
    (hs : PortInv minPort maxPort s) (port : Int) (client : Nat) (ev : CtrlEvent) :
    PortInv minPort maxPort (controlStep s port client ev).1 := by
  rcases controlStep_alloc s port client ev with h | h
  · rw [h]; exact hs.cleanupClient port none
  · exact hs.of_sameAlloc h

theorem mapGet_mapSet {K V : Type} [DecidableEq K] (k p : K) (v : V) (m : List (K × V)) :
    mapGet p (mapSet k v m) = if k = p then some v else mapGet p m := by
  by_cases h : k = p
  · simp [mapSet, mapGet, h]
  · have h' : p ≠ k := fun e => h e.symm
    simp [mapSet, mapGet, h, mapGet_mapDelete_ne h']

theorem mem_mapKeys_mapSet {K V : Type} [DecidableEq K] (k p : K) (v : V) (m : List (K × V)) :
    p ∈ mapKeys (mapSet k v m) ↔ p = k ∨ p ∈ mapKeys m := by
  have h := mem_mapKeys_mapDelete (V := V) k p m
  simp only [mapKeys] at h
  simp only [mapSet, mapKeys, List.map_cons, List.mem_cons]
  rw [h]
  constructor
  · rintro (h1 | ⟨h1, _⟩)
    · exact Or.inl h1
    · exact Or.inr h1
  · rintro (h1 | h1)
    · exact Or.inl h1
    · by_cases hp : p = k
      · exact Or.inl hp
      · exact Or.inr ⟨h1, hp⟩

/-- The invariant after the session was stored under the allocated port. -/
theorem PortInv.store {minPort maxPort : Int} {s : RelayServer} {port : Int} {rest : List Int}
    (hs : PortInv minPort maxPort s) (hpool : s.availablePorts = port :: rest)
    (client : clientConnection) :
    PortInv minPort maxPort
      { s with
        availablePorts := rest
        heap := s.heap ++ [client]
        clients := mapSet port s.heap.length s.clients } := by
  have hnd := hs.nodup
  rw [hpool, List.nodup_cons] at hnd
  constructor
  · exact hnd.2
  · intro p hp
    show p ∉ mapKeys (mapSet port s.heap.length s.clients)
    rw [mem_mapKeys_mapSet]
    rintro (h | h)
    · exact hnd.1 (h ▸ hp)
    · exact hs.disjoint p (by rw [hpool]; exact List.mem_cons_of_mem _ hp) h
  · intro q ptr hq
    change mapGet q (mapSet port s.heap.length s.clients) = some ptr at hq
    show ptr < (s.heap ++ [client]).length
    rw [mapGet_mapSet] at hq
    rw [List.length_append, List.length_singleton]
    split at hq
    · cases hq; exact Nat.lt_succ_self _
    · exact Nat.lt_succ_of_lt (hs.ptrs_valid q ptr hq)
  · intro p hlo hhi
    show p ∈ rest ∨ p ∈ mapKeys (mapSet port s.heap.length s.clients)
    rw [mem_mapKeys_mapSet]
    rcases hs.cover p hlo hhi with h | h
    · rw [hpool, List.mem_cons] at h
      rcases h with h | h
      · exact Or.inr (Or.inl h)
      · exact Or.inl h
    · exact Or.inr (Or.inr h)

/-- The invariant after the allocated port was released again. -/
theorem PortInv.giveBack {minPort maxPort : Int} {s : RelayServer} {port : Int}
    {rest : List Int} (hs : PortInv minPort maxPort s) (hpool : s.availablePorts = port :: rest) :
    PortInv minPort maxPort (releasePort { s with availablePorts := rest } port) := by
  have hperm : (rest ++ [port]).Perm s.availablePorts := by
    rw [hpool]
    exact (List.perm_append_comm).trans (List.Perm.refl _)
  constructor
  · exact hperm.nodup_iff.2 hs.nodup
  · intro p hp
    exact hs.disjoint p (hperm.mem_iff.1 hp)
  · exact hs.ptrs_valid
  · intro p hlo hhi
    rcases hs.cover p hlo hhi with h | h
    · exact Or.inl (hperm.mem_iff.2 h)
    · exact Or.inr h

theorem PortInv.handleClientRegistration {minPort maxPort : Int} {s : RelayServer}
    (hs : PortInv minPort maxPort s) (conn : Conn) (env : RegEnv) :
    PortInv minPort maxPort (handleClientRegistration s conn env).1 := by
  unfold Tun.handleClientRegistration
  cases hd : env.decoded with
  | none =>
    exact hs.of_sameAlloc ((sameAlloc_encode s conn _).trans (sameAlloc_closeConn _ conn))
  | some req =>
    simp only
    split
    · exact hs.of_sameAlloc ((sameAlloc_encode s conn _).trans (sameAlloc_closeConn _ conn))
    · cases hpool : s.availablePorts with
      | nil =>
        simp only [allocatePort, hpool]
        exact hs.of_sameAlloc ((sameAlloc_encode s conn _).trans (sameAlloc_closeConn _ conn))
      | cons port rest =>
        simp only [allocatePort, hpool]
        cases hl : env.listen with
        | none =>
          simp only
          exact (hs.giveBack hpool).of_sameAlloc
            ((sameAlloc_encode _ conn _).trans (sameAlloc_closeConn _ conn))
        | some listener =>
          simp only
          have h3 := (hs.store hpool ⟨conn, req.LocalHost, req.LocalPort, []⟩).of_sameAlloc
              (sameAlloc_encode _ conn (.response { Success := true, PublicPort := port }))
          split
          · exact h3
          · exact h3.cleanupClient port (some listener)

theorem mem_newPortsLoop (maxPort p : Int) :
    ∀ (fuel : Nat) (port : Int) (acc : List Int), (maxPort - port + 1).toNat ≤ fuel →
      (p ∈ newPortsLoop maxPort fuel port acc ↔ p ∈ acc ∨ (port ≤ p ∧ p ≤ maxPort)) := by
  intro fuel
  induction fuel with
  | zero =>
    intro port acc hf
    simp only [newPortsLoop]
    constructor
    · exact Or.inl
    · rintro (h | ⟨h1, h2⟩)
      · exact h
      · omega
  | succ fuel ih =>
    intro port acc hf
    simp only [newPortsLoop]
    split
    · rw [ih (port + 1) (acc ++ [port]) (by omega), List.mem_append, List.mem_singleton]
      constructor
      · rintro ((h | h) | ⟨h1, h2⟩)
        · exact Or.inl h
        · exact Or.inr ⟨by omega, by omega⟩
        · exact Or.inr ⟨by omega, h2⟩
      · rintro (h | ⟨h1, h2⟩)
        · exact Or.inl (Or.inl h)
        · by_cases hp : p = port
          · exact Or.inl (Or.inr hp)
          · exact Or.inr ⟨by omega, h2⟩
    · constructor
      · exact Or.inl
      · rintro (h | ⟨h1, h2⟩)
        · exact h
        · omega

theorem nodup_newPortsLoop (maxPort : Int) :
    ∀ (fuel : Nat) (port : Int) (acc : List Int), acc.Nodup → (∀ a, a ∈ acc → a < port) →
      (newPortsLoop maxPort fuel port acc).Nodup := by
  intro fuel
  induction fuel with
  | zero => intro port acc hnd _; exact hnd
  | succ fuel ih =>
    intro port acc hnd hlt
    simp only [newPortsLoop]
    split
    · apply ih
      · rw [List.nodup_append]
        refine ⟨hnd, List.nodup_singleton port, ?_⟩
        intro a ha hb
        rw [List.mem_singleton] at hb
        have := hlt a ha
        omega
      · intro a ha
        rw [List.mem_append, List.mem_singleton] at ha
        rcases ha with ha | ha
        · have := hlt a ha
          omega
        · omega
    · exact hnd

theorem PortInv.NewRelayServer {registrationPort minPort maxPort : Int} {s : RelayServer}
    (h : NewRelayServer registrationPort minPort maxPort = .ok s) :
    PortInv minPort maxPort s := by
  unfold Tun.NewRelayServer at h
  split at h
  · cases h
  · cases h
    constructor
    · exact nodup_newPortsLoop maxPort _ minPort [] List.nodup_nil (fun a ha => by cases ha)
    · intro p _ hk
      simp [mapKeys] at hk
    · intro port ptr h
      simp [mapGet] at h
    · intro p hlo hhi
      left
      exact (mem_newPortsLoop maxPort p _ minPort [] (le_refl _)).2 (Or.inr ⟨hlo, hhi⟩)

/-- The constructor returns a server whenever `minPort ≤ maxPort + 1`. -/
theorem NewRelayServer_returns (registrationPort minPort maxPort : Int)
    (h : minPort ≤ maxPort + 1) :
    ∃ s, NewRelayServer registrationPort minPort maxPort = .ok s := by
  unfold Tun.NewRelayServer
  rw [if_neg (by omega)]
  exact ⟨_, rfl⟩

theorem server0_eq : NewRelayServer 5678 10000 10000 = .ok server0 := by decide

theorem PortInv.applyOp {minPort maxPort : Int} {s : RelayServer}
    (hs : PortInv minPort maxPort s) (op : ServerOp) : PortInv minPort maxPort (applyOp s op) := by
  cases op with
  | register conn env => exact hs.handleClientRegistration conn env
  | cleanup port listener => exact hs.cleanupClient port listener
  | control port client ev => exact hs.controlStep port client ev
  | accept port listener client ev =>
    exact hs.of_sameAlloc (sameAlloc_acceptStep s port listener client ev)
  | userData port client userID userConn reads =>
    exact hs.of_sameAlloc (sameAlloc_handleUserData s port client userID userConn reads)
  | shutdown =>
    simp only [Tun.applyOp]
    cases h : Shutdown s with
    | error e => exact hs
    | ok t => exact hs.of_sameAlloc (sameAlloc_Shutdown s t h)

theorem PortInv.runOps {minPort maxPort : Int} (ops : List ServerOp) :
    ∀ {s : RelayServer}, PortInv minPort maxPort s → PortInv minPort maxPort (runOps s ops) := by
  induction ops with
  | nil => intro s hs; exact hs
  | cons op rest ih => intro s hs; exact ih (hs.applyOp op)

/-- Every state the server reaches satisfies the allocator invariant. -/
theorem portInv_reachable {registrationPort minPort maxPort : Int} {s : RelayServer}
    (h : NewRelayServer registrationPort minPort maxPort = .ok s) (ops : List ServerOp) :
    PortInv minPort maxPort (runOps s ops) :=
  PortInv.runOps ops (PortInv.NewRelayServer h)

theorem bindError_ne_empty (port : Int) : "Failed to bind to port " ++ toString port ≠ "" := by
  intro h
  have hlen := congrArg String.length h
  simp only [String.length_append] at hlen
  have h0 : "Failed to bind to port ".length = 23 := by decide
  have h1 : "".length = 0 := by decide
  omega

theorem mintUserID_ne_empty (userAddr : String) (nanos : Int) :
    mintUserID userAddr nanos ≠ "" := by
  intro h
  have hlen := congrArg String.length h
  simp only [mintUserID, String.length_append] at hlen
  have h0 : "-".length = 1 := by decide
  have h1 : "".length = 0 := by decide
  omega

theorem connOf_encode (s : RelayServer) (c : Conn) (p : Packet) (client : Nat) :
    connOf (encode s c p) client = connOf s client := rfl

/-- The user reader on reads that all succeed and are all forwarded: one `data` record per
read, in read order, and the reader is still in its loop. -/
theorem handleUserDataLoop_all_ok (client : Nat) (userID : String) (chunks : List (List Byte)) :
    ∀ s : RelayServer,
      handleUserDataLoop s client userID (chunks.map (fun ch => ReadResult.ok ch true))
        = ({ s with sent := s.sent ++ chunks.map (fun ch => (connOf s client,
            Packet.message { Type_ := MessageTypeData, UserID := userID, Data := some ch })) },
          false) := by
  induction chunks with
  | nil => intro s; simp [handleUserDataLoop]
  | cons ch rest ih =>
    intro s
    simp only [List.map_cons, handleUserDataLoop, if_true]
    rw [ih, connOf_encode]
    simp [encode, List.append_assoc]

/-- The relay reader on the `data` records of one user id that is in the table, all writes
succeeding: every non-empty payload is written to the local socket of that user id, in
arrival order, and the reader is still in its loop. -/
theorem handleRelayMessages_data (userID : String) (localConn : Conn) (huid : userID ≠ "")
    (chunks : List (List Byte)) :
    ∀ c : TunnelClient, c.shutdownClosed = false →
      mapGet userID c.userConns = some localConn →
      TunnelClient.handleRelayMessages c (chunks.map (fun ch => TunnelClient.RelayEvent.recv
          (wire { Type_ := MessageTypeData, UserID := userID, Data := some ch }) true))
        = .ok ({ c with written := c.written ++
            (chunks.filter (fun ch => decide (ch ≠ []))).map (fun ch => (localConn, ch)) },
          true) := by
  have hne : ¬ (MessageTypeData = MessageTypeConnect) := by decide
  induction chunks with
  | nil => intro c _ _; simp [TunnelClient.handleRelayMessages]
  | cons ch rest ih =>
    intro c hrun hget
    cases ch with
    | nil =>
      have hstep : TunnelClient.relayStep c (TunnelClient.RelayEvent.recv
          (wire { Type_ := MessageTypeData, UserID := userID, Data := some [] }) true)
            = .ok (c, true) := by
        simp [TunnelClient.relayStep, hrun, wire, hne]
      simp only [List.map_cons, TunnelClient.handleRelayMessages, hstep]
      rw [ih c hrun hget]
      simp
    | cons b bs =>
      have hstep : TunnelClient.relayStep c (TunnelClient.RelayEvent.recv
          (wire { Type_ := MessageTypeData, UserID := userID, Data := some (b :: bs) }) true)
            = .ok ({ c with written := c.written ++ [(localConn, b :: bs)] }, true) := by
        simp [TunnelClient.relayStep, hrun, wire, hne, huid,
          TunnelClient.forwardToLocalService, hget]
      simp only [List.map_cons, TunnelClient.handleRelayMessages, hstep]
      rw [ih { c with written := c.written ++ [(localConn, b :: bs)] } hrun hget]
      simp [List.append_assoc]

theorem flatten_filter_nonempty (chunks : List (List Byte)) :
    (chunks.filter (fun ch => decide (ch ≠ []))).flatten = chunks.flatten := by
  induction chunks with
  | nil => rfl
  | cons ch rest ih =>
    cases ch with
    | nil => simpa using ih
    | cons b bs => simpa [List.filter_cons] using ih

/-- The control reader stops with `cleanupClient(port, nil)` on a decode failure. -/
theorem controlStep_decodeErr (s : RelayServer) (port : Int) (client : Nat) (eof : Bool) :
    controlStep s port client (.decodeErr eof) = (cleanupClient s port none, false) := rfl

/-- The control reader stops with `cleanupClient(port, nil)` on any `disconnect`. -/
theorem controlStep_disconnect (s : RelayServer) (port : Int) (client : Nat) (uid : String)
    (data : Option (List Byte)) (ioOk : Bool) :
    controlStep s port client
        (.recv { Type_ := MessageTypeDisconnect, UserID := uid, Data := data } ioOk)
      = (cleanupClient s port none, false) := by
  have h1 : ¬ (MessageTypeDisconnect = MessageTypeData) := by decide
  have h2 : ¬ (MessageTypeDisconnect = MessageTypePing) := by decide
  simp [controlStep, h1, h2]

/-- The listeners are not touched by `cleanupClient(port, nil)`. -/
theorem cleanupClient_nil_closedListeners (s : RelayServer) (port : Int) :
    (cleanupClient s port none).closedListeners = s.closedListeners := by
  unfold cleanupClient
  simp only
  split
  · rfl
  · split
    · rfl
    · simp [releasePort, closeConn]

theorem mem_closedConns_closeAll (t : List (String × Conn)) (x : Conn) :
    ∀ s : RelayServer, x ∈ s.closedConns → x ∈ (closeAll s t).closedConns := by
  induction t with
  | nil => intro s h; exact h
  | cons e rest ih =>
    intro s h
    obtain ⟨u, c⟩ := e
    exact ih _ ((mem_closeHandle c x s.closedConns).2 (Or.inr h))

theorem mem_closeAll_of_mem (t : List (String × Conn)) (u : String) (k : Conn)
    (hk : (u, k) ∈ t) : ∀ s : RelayServer, k ∈ (closeAll s t).closedConns := by
  induction t with
  | nil => cases hk
  | cons e rest ih =>
    intro s
    obtain ⟨u', c⟩ := e
    rcases List.mem_cons.1 hk with h | h
    · cases h
      exact mem_closedConns_closeAll rest k _ ((mem_closeHandle k k _).2 (Or.inl rfl))
    · exact ih h _

theorem TunnelClient.closeAll_keeps_signal (t : List (String × Conn)) :
    ∀ c : TunnelClient, (TunnelClient.closeAll c t).shutdownClosed = c.shutdownClosed := by
  induction t with
  | nil => intro c; rfl
  | cons e rest ih =>
    intro c
    obtain ⟨u, k⟩ := e
    simp [TunnelClient.closeAll, ih, TunnelClient.closeConn]

/-- A `Shutdown` that returns leaves the channel `shutdown` closed, so the next one panics. -/
theorem TunnelClient.Shutdown_after_Shutdown (c c1 : TunnelClient)
    (h : TunnelClient.Shutdown c = .ok c1) :
    c1.shutdownClosed = true ∧ TunnelClient.Shutdown c1 = .error "close of closed channel" := by
  have hclosed : c1.shutdownClosed = true := by
    unfold TunnelClient.Shutdown at h
    split at h
    · cases h
    · cases hk : c.conn with
      | none =>
        simp only [hk] at h
        cases h
        rw [TunnelClient.closeAll_keeps_signal]
      | some k =>
        simp only [hk] at h
        cases h
        rw [TunnelClient.closeAll_keeps_signal]
        rfl
  exact ⟨hclosed, by simp [TunnelClient.Shutdown, hclosed]⟩

/-- The local reader at EOF or a read error, for a user id that is in the table. -/
theorem TunnelClient.localReaderStep_err (c : TunnelClient) (userID : String) (localConn : Conn)
    (eof : Bool) (hrun : c.shutdownClosed = false)
    (hget : mapGet userID c.userConns = some localConn) :
    TunnelClient.localReaderStep c userID localConn (.err eof)
      = .ok ({ c with closedConns := closeHandle localConn c.closedConns,
                      userConns := mapDelete userID c.userConns }, false) := by
  simp [TunnelClient.localReaderStep, hrun, TunnelClient.closeUserConnection, hget,
    TunnelClient.closeConn]

/-- The control reader on a `ping`: one `pong` is handed to the encoder of the control socket
and the loop goes on, whatever the result of the write. -/
theorem controlStep_ping (s : RelayServer) (port : Int) (client : Nat) (uid : String)
    (data : Option (List Byte)) (ioOk : Bool) :
    controlStep s port client (.recv { Type_ := MessageTypePing, UserID := uid, Data := data } ioOk)
      = (encode s (connOf s client) (.message { Type_ := MessageTypePong }), true) := by
  have h1 : ¬ (MessageTypePing = MessageTypeData) := by decide
  simp [controlStep, h1]

/-! ## Port allocator -/

/-- C2: `allocatePort` is FIFO. On a pool `p :: rest` it returns `p` without error and leaves
the pool `rest` (the remaining ports in their old order) and every other field as it was; on
the empty pool it returns the error "no available ports" and changes nothing. -/
theorem allocatePort_fifo (s : RelayServer) (p : Int) (rest : List Int) :
    allocatePort { s with availablePorts := p :: rest }
        = ({ s with availablePorts := rest }, Except.ok p) ∧
      allocatePort { s with availablePorts := [] }
        = ({ s with availablePorts := [] }, Except.error "no available ports") :=
  ⟨rfl, rfl⟩

/-- C3, as stated, fails: releasing port 10000 into the duplicate-free pool `[10000]` that
already holds it yields `[10000, 10000]`. -/
theorem releasePort_duplicate_entry :
    NewRelayServer 5678 10000 10000 = .ok server0 ∧
      server0.availablePorts = [10000] ∧ server0.availablePorts.Nodup ∧
      (releasePort server0 10000).availablePorts = [10000, 10000] ∧
      ¬ (releasePort server0 10000).availablePorts.Nodup := by
  decide

/-- C3, amended: for a pool without duplicate entries and a port `p` that is not in the pool,
`releasePort p` appends `p` at the end of the pool, so `p` is in the pool again and the pool
still has no duplicate entries; no other field changes. -/
theorem releasePort_nodup (s : RelayServer) (p : Int) (hnd : s.availablePorts.Nodup)
    (hp : p ∉ s.availablePorts) :
    releasePort s p = { s with availablePorts := s.availablePorts ++ [p] } ∧
      p ∈ (releasePort s p).availablePorts ∧ (releasePort s p).availablePorts.Nodup := by
  refine ⟨rfl, ?_, ?_⟩
  · simp [releasePort]
  · simp only [releasePort]
    rw [List.nodup_append]
    refine ⟨hnd, List.nodup_singleton p, ?_⟩
    intro a ha hb
    rw [List.mem_singleton] at hb
    exact hp (hb ▸ ha)

theorem releasePort_nodup_witness :
    server1.availablePorts.Nodup ∧ (10000 : Int) ∉ server1.availablePorts ∧
      (releasePort server1 10000 = { server1 with availablePorts := server1.availablePorts ++ [10000] } ∧
        (10000 : Int) ∈ (releasePort server1 10000).availablePorts ∧
        (releasePort server1 10000).availablePorts.Nodup) :=
  ⟨by decide, by decide, releasePort_nodup server1 10000 (by decide) (by decide)⟩

/-! ## Session cleanup -/

/-- C5: `cleanupClient` is idempotent. For every server state, port and listener argument,
running it twice in succession gives the same state (free pool, clients map, closed sockets
and listeners, and every other field) as running it once. -/
theorem cleanupClient_idempotent (s : RelayServer) (port : Int) (listener : Option Listener) :
    cleanupClient (cleanupClient s port listener) port listener
      = cleanupClient s port listener := by
  have key : ∀ t : RelayServer, (∀ l, listener = some l → l ∈ t.closedListeners) →
      mapGet port t.clients = none → cleanupClient t port listener = t := by
    intro t hl hg
    cases listener with
    | none => simp [cleanupClient, hg]
    | some l => simp [cleanupClient, closeListener_of_mem (hl l rfl), hg]
  cases listener with
  | none =>
    cases hg : mapGet port s.clients with
    | none => simp [cleanupClient, hg]
    | some ptr =>
      cases hp : s.heap[ptr]? with
      | none => simp [cleanupClient, hg, hp]
      | some client =>
        apply key
        · intro l hl; cases hl
        · simp [cleanupClient, hg, hp, releasePort, mapGet_mapDelete_self]
  | some l =>
    have hmem : l ∈ (closeListener s l).closedListeners := by
      simp [closeListener, mem_closeHandle]
    cases hg : mapGet port s.clients with
    | none =>
      have h1 : cleanupClient s port (some l) = closeListener s l := by
        simp [cleanupClient, closeListener, hg]
      rw [h1]
      apply key
      · intro l' hl'; cases hl'; exact hmem
      · simpa [closeListener] using hg
    | some ptr =>
      cases hp : s.heap[ptr]? with
      | none =>
        have h1 : cleanupClient s port (some l) = closeListener s l := by
          simp [cleanupClient, closeListener, hg, hp]
        rw [h1]
        simp [cleanupClient, closeListener, hg, hp, closeHandle_idem]
      | some client =>
        apply key
        · intro l' hl'
          cases hl'
          simpa [cleanupClient, closeListener, hg, hp, releasePort, closeConn] using hmem
        · simp [cleanupClient, closeListener, hg, hp, releasePort, mapGet_mapDelete_self]

/-- C4: in every state reached from the result of `NewRelayServer` by steps of the server in
which port `p` is a key of the clients map, after `cleanupClient` for `p` (with or without a
listener) the port is no longer a key of the clients map and occurs exactly once in the free
pool. -/
theorem cleanupClient_releases_once (registrationPort minPort maxPort : Int) (s0 : RelayServer)
    (ops : List ServerOp) (p : Int) (listener : Option Listener)
    (hnew : NewRelayServer registrationPort minPort maxPort = .ok s0)
    (hreg : p ∈ mapKeys (runOps s0 ops).clients) :
    p ∉ mapKeys (cleanupClient (runOps s0 ops) p listener).clients ∧
      (cleanupClient (runOps s0 ops) p listener).availablePorts.count p = 1 := by
  have hinv := portInv_reachable hnew ops
  generalize runOps s0 ops = s at hreg hinv
  have hafter := hinv.cleanupClient p listener
  obtain ⟨ptr, hget⟩ := mapGet_isSome_of_mem hreg
  rcases cleanupClient_alloc s p listener with ⟨_, _, _, _, h1, h2, _⟩ | ⟨hbad, _⟩
  · have hin : p ∈ (cleanupClient s p listener).availablePorts := by
      rw [h1]; simp
    exact ⟨fun hk => hafter.disjoint p hin hk, List.count_eq_one_of_mem hafter.nodup hin⟩
  · exfalso
    rcases hbad with hnone | ⟨ptr', hsome, hdangling⟩
    · rw [hnone] at hget; cases hget
    · have hlt := hinv.ptrs_valid p ptr' hsome
      rw [List.getElem?_eq_none_iff] at hdangling
      omega

/-- Witness of C4 on the state after one successful registration on port 10000. -/
theorem cleanupClient_releases_once_witness :
    NewRelayServer 5678 10000 10000 = .ok server0 ∧
      (10000 : Int) ∈ mapKeys (runOps server0 [ServerOp.register 1 regOk]).clients ∧
      ((10000 : Int) ∉ mapKeys (cleanupClient (runOps server0 [ServerOp.register 1 regOk])
          10000 none).clients ∧
        (cleanupClient (runOps server0 [ServerOp.register 1 regOk])
          10000 none).availablePorts.count 10000 = 1) :=
  ⟨by decide, by decide,
    cleanupClient_releases_once 5678 10000 10000 server0 [ServerOp.register 1 regOk] 10000 none
      (by decide) (by decide)⟩

/-! ## Allocator invariant -/

/-- C1: for `min ≤ max`, `NewRelayServer(reg, min, max)` returns a server, and in every state
reached from it by any sequence of steps of the server (completed registration attempts with
any outcome, session cleanups, and the steps of the control reader, user acceptor, user readers
and shutdown), every port `p` with `min ≤ p ≤ max` is in exactly one of the free pool and the
key set of the clients map. -/
theorem port_free_xor_assigned (registrationPort minPort maxPort : Int) (hmm : minPort ≤ maxPort)
    (ops : List ServerOp) (p : Int) (hlo : minPort ≤ p) (hhi : p ≤ maxPort) :
    ∃ s0, NewRelayServer registrationPort minPort maxPort = .ok s0 ∧
      ((p ∈ (runOps s0 ops).availablePorts ∧ p ∉ mapKeys (runOps s0 ops).clients) ∨
        (p ∉ (runOps s0 ops).availablePorts ∧ p ∈ mapKeys (runOps s0 ops).clients)) := by
  obtain ⟨s0, hnew⟩ := NewRelayServer_returns registrationPort minPort maxPort (by omega)
  refine ⟨s0, hnew, ?_⟩
  have hinv := portInv_reachable hnew ops
  rcases hinv.cover p hlo hhi with h | h
  · exact Or.inl ⟨h, hinv.disjoint p h⟩
  · exact Or.inr ⟨fun hp => hinv.disjoint p hp h, h⟩

/-- Witness of C1 on a run with a registration, a failed bind and a cleanup. -/
theorem port_free_xor_assigned_witness :
    (10000 : Int) ≤ 10001 ∧ (10000 : Int) ≤ 10001 ∧ (10001 : Int) ≤ 10001 ∧
      ∃ s0, NewRelayServer 5678 10000 10001 = .ok s0 ∧
        (((10001 : Int) ∈ (runOps s0 [ServerOp.register 1 regOk,
              ServerOp.register 2 ⟨regOk.decoded, none, true⟩,
              ServerOp.cleanup 10000 none]).availablePorts ∧
            (10001 : Int) ∉ mapKeys (runOps s0 [ServerOp.register 1 regOk,
              ServerOp.register 2 ⟨regOk.decoded, none, true⟩,
              ServerOp.cleanup 10000 none]).clients) ∨
          ((10001 : Int) ∉ (runOps s0 [ServerOp.register 1 regOk,
              ServerOp.register 2 ⟨regOk.decoded, none, true⟩,
              ServerOp.cleanup 10000 none]).availablePorts ∧
            (10001 : Int) ∈ mapKeys (runOps s0 [ServerOp.register 1 regOk,
              ServerOp.register 2 ⟨regOk.decoded, none, true⟩,
              ServerOp.cleanup 10000 none]).clients)) :=
  ⟨by decide, by decide, by decide, port_free_xor_assigned 5678 10000 10001 (by decide)
    [ServerOp.register 1 regOk, ServerOp.register 2 ⟨regOk.decoded, none, true⟩,
      ServerOp.cleanup 10000 none] 10001 (by decide) (by decide)⟩

/-! ## Registration -/

/-- C7: a registration that fails before the success response (`local_port <= 0`, an empty
pool, or a bind failure on the allocated port) starts no task, hands the registering socket
one response with `success = false` and a non-empty error (exactly "no available ports" when
the request is valid and the pool is empty), closes that socket, leaves the clients map, the
session objects and the listeners unchanged, and leaves a free pool that is a permutation of
the old one (the same ports: an allocated port has been released). -/
theorem registration_failure_atomic (s : RelayServer) (conn : Conn) (env : RegEnv)
    (req : RegistrationRequest) (hdec : env.decoded = some req)
    (hfail : req.LocalPort ≤ 0 ∨ s.availablePorts = [] ∨ env.listen = none) :
    (handleClientRegistration s conn env).2 = none ∧
      (∃ e : String, e ≠ "" ∧
        (handleClientRegistration s conn env).1.sent
          = s.sent ++ [(conn, Packet.response { Success := false, Error := e })] ∧
        (0 < req.LocalPort → s.availablePorts = [] → e = "no available ports")) ∧
      (handleClientRegistration s conn env).1.clients = s.clients ∧
      (handleClientRegistration s conn env).1.heap = s.heap ∧
      (handleClientRegistration s conn env).1.closedListeners = s.closedListeners ∧
      conn ∈ (handleClientRegistration s conn env).1.closedConns ∧
      (handleClientRegistration s conn env).1.availablePorts.Perm s.availablePorts ∧
      (∀ p, p ∈ (handleClientRegistration s conn env).1.availablePorts ↔
        p ∈ s.availablePorts) := by
  have hclosed : ∀ l : List Nat, conn ∈ closeHandle conn l :=
    fun l => (mem_closeHandle conn conn l).2 (Or.inl rfl)
  unfold handleClientRegistration
  rw [hdec]
  by_cases hport : req.LocalPort ≤ 0
  · simp only [hport, if_true]
    refine ⟨trivial, ⟨_, by decide, rfl, fun h => by omega⟩, rfl, rfl, rfl, hclosed _,
      List.Perm.refl _, fun p => Iff.rfl⟩
  · simp only [hport, if_false]
    cases hpool : s.availablePorts with
    | nil =>
      simp only [allocatePort, hpool]
      refine ⟨trivial, ⟨_, by decide, rfl, fun _ _ => rfl⟩, rfl, rfl, rfl, hclosed _, ?_, ?_⟩
      · show s.availablePorts.Perm []
        rw [hpool]
      · intro p
        show p ∈ s.availablePorts ↔ p ∈ []
        rw [hpool]
    | cons port rest =>
      have hlisten : env.listen = none := by
        rcases hfail with h | h | h
        · exact absurd h hport
        · rw [hpool] at h; cases h
        · exact h
      simp only [allocatePort, hpool, hlisten]
      have hperm : (rest ++ [port]).Perm (port :: rest) := List.perm_append_comm
      refine ⟨trivial, ⟨_, bindError_ne_empty port, rfl, fun _ h => by cases h⟩, rfl, rfl, rfl,
        hclosed _, hperm, fun p => hperm.mem_iff⟩

/-- Witness of C7: the second registration on a server with `min_port = max_port`. -/
theorem registration_failure_atomic_witness :
    regOk.decoded = some { LocalHost := "localhost", LocalPort := 3000 } ∧
      server1.availablePorts = [] ∧
      (handleClientRegistration server1 2 regOk).1.sent
        = server1.sent ++ [(2, Packet.response { Success := false, Error := "no available ports" })] ∧
      ((handleClientRegistration server1 2 regOk).2 = none ∧
        (∃ e : String, e ≠ "" ∧
          (handleClientRegistration server1 2 regOk).1.sent
            = server1.sent ++ [(2, Packet.response { Success := false, Error := e })] ∧
          (0 < (3000 : Int) → server1.availablePorts = [] → e = "no available ports")) ∧
        (handleClientRegistration server1 2 regOk).1.clients = server1.clients ∧
        (handleClientRegistration server1 2 regOk).1.heap = server1.heap ∧
        (handleClientRegistration server1 2 regOk).1.closedListeners = server1.closedListeners ∧
        2 ∈ (handleClientRegistration server1 2 regOk).1.closedConns ∧
        (handleClientRegistration server1 2 regOk).1.availablePorts.Perm server1.availablePorts ∧
        (∀ p, p ∈ (handleClientRegistration server1 2 regOk).1.availablePorts ↔
          p ∈ server1.availablePorts)) :=
  ⟨rfl, by decide, by decide,
    registration_failure_atomic server1 2 regOk { LocalHost := "localhost", LocalPort := 3000 }
      rfl (Or.inr (Or.inl (by decide)))⟩

/-! ## Forwarding of user bytes -/

/-- C8: for every sequence `chunks` of successful reads on one user connection, the user reader
of the server (every `Encode` succeeding) hands the control channel exactly one record
`data{uid, chunk}` per read, in read order; the relay reader of the client, given these records
as they arrive over the wire for a `uid` that is in its table (every `Write` succeeding), writes
each non-empty payload to the local socket of that `uid` in arrival order, writes nothing else,
keeps its table, and the bytes written are the concatenation of the bytes read. -/
theorem user_bytes_in_order (s : RelayServer) (client : Nat) (userAddr : String) (nanos : Int)
    (chunks : List (List Byte)) (c : TunnelClient) (localConn : Conn)
    (hrun : c.shutdownClosed = false)
    (hget : mapGet (mintUserID userAddr nanos) c.userConns = some localConn) :
    (handleUserDataLoop s client (mintUserID userAddr nanos)
        (chunks.map (fun ch => ReadResult.ok ch true))).1.sent
      = s.sent ++ chunks.map (fun ch => (connOf s client, Packet.message
          { Type_ := MessageTypeData, UserID := mintUserID userAddr nanos, Data := some ch })) ∧
    ∃ c1 : TunnelClient, ∃ news : List (List Byte),
      TunnelClient.handleRelayMessages c (chunks.map (fun ch => TunnelClient.RelayEvent.recv
          (wire ⟨MessageTypeData, mintUserID userAddr nanos, some ch⟩) true))
        = .ok (c1, true) ∧
        c1.written = c.written ++ news.map (fun ch => (localConn, ch)) ∧
        news = chunks.filter (fun ch => decide (ch ≠ [])) ∧
        news.flatten = chunks.flatten ∧
        c1.userConns = c.userConns := by
  constructor
  · rw [handleUserDataLoop_all_ok]
  · exact ⟨_, _, handleRelayMessages_data _ localConn (mintUserID_ne_empty userAddr nanos) chunks
      c hrun hget, rfl, rfl, flatten_filter_nonempty chunks, rfl⟩

/-- Witness of C8: the reads "HE", "" and "LLO" of the user connection of `server2`. -/
theorem user_bytes_in_order_witness :
    client1.shutdownClosed = false ∧
      mapGet (mintUserID "203.0.113.5:40000" 17) client1.userConns = some 4 ∧
      ((handleUserDataLoop server2 0 (mintUserID "203.0.113.5:40000" 17)
          ([[72, 69], [], [76, 76, 79]].map (fun ch => ReadResult.ok ch true))).1.sent
        = server2.sent ++ [[72, 69], [], [76, 76, 79]].map (fun ch => (connOf server2 0,
            Packet.message ⟨MessageTypeData, mintUserID "203.0.113.5:40000" 17, some ch⟩)) ∧
      ∃ c1 : TunnelClient, ∃ news : List (List Byte),
        TunnelClient.handleRelayMessages client1 ([[72, 69], [], [76, 76, 79]].map
            (fun ch => TunnelClient.RelayEvent.recv
              (wire ⟨MessageTypeData, mintUserID "203.0.113.5:40000" 17, some ch⟩) true))
          = .ok (c1, true) ∧
          c1.written = client1.written ++ news.map (fun ch => ((4 : Conn), ch)) ∧
          news = [[72, 69], [], [76, 76, 79]].filter (fun ch => decide (ch ≠ [])) ∧
          news.flatten = [[72, 69], [], [76, 76, 79]].flatten ∧
          c1.userConns = client1.userConns) :=
  ⟨rfl, by decide, user_bytes_in_order server2 0 "203.0.113.5:40000" 17
    [[72, 69], [], [76, 76, 79]] client1 4 rfl (by decide)⟩

/-! ## Control reader of the server -/

/-- C6, the code at the failing input: after a successful registration on port 10000 with
listener 7, each trigger of the cleanup by the control reader (EOF, a decode error, a
`disconnect` message) removes the session and returns port 10000 to the pool but leaves
listener 7 open; the user acceptor of the removed session goes on accepting (its loop continues
after an accept, and after an accept error while the server is not shutting down), and a later
registration that gets port 10000 and fails to bind it is refused. -/
theorem cleanup_leaves_listener_open :
    NewRelayServer 5678 10000 10000 = .ok server0 ∧
      (handleClientRegistration server0 1 regOk).2
        = some { port := 10000, client := 0, listener := 7 } ∧
      (∀ ev ∈ [CtrlEvent.decodeErr true, CtrlEvent.decodeErr false,
          CtrlEvent.recv { Type_ := MessageTypeDisconnect } true],
        controlStep server1 10000 0 ev = (cleanupClient server1 10000 none, false)) ∧
      (10000 : Int) ∉ mapKeys (cleanupClient server1 10000 none).clients ∧
      (cleanupClient server1 10000 none).availablePorts = [10000] ∧
      1 ∈ (cleanupClient server1 10000 none).closedConns ∧
      7 ∉ (cleanupClient server1 10000 none).closedListeners ∧
      (acceptStep (cleanupClient server1 10000 none) 10000 7 0
          (.accepted 9 "203.0.113.5:40000" 17 false)).2.1 = true ∧
      (acceptStep (cleanupClient server1 10000 none) 10000 7 0 .acceptErr)
        = (cleanupClient server1 10000 none, true, none) ∧
      (handleClientRegistration (cleanupClient server1 10000 none) 2
          { regOk with listen := none }).1.sent.getLast?
        = some (2, Packet.response { Success := false, Error := "Failed to bind to port 10000" }) := by
  decide

/-- C9, as stated, fails: on `server2` (session on port 10000 with one user connection) a
`disconnect` that carries the user id of that connection tears the whole session down: the
reader stops, port 10000 leaves the clients map and returns to the free pool, the control
socket 1 is closed. -/
theorem disconnect_with_user_id_tears_down :
    (10000 : Int) ∈ mapKeys server2.clients ∧
      mapGet "203.0.113.5:40000-17" (userConnsOf server2 0) = some 9 ∧
      (controlStep server2 10000 0
        (.recv ⟨MessageTypeDisconnect, "203.0.113.5:40000-17", none⟩ true)).2 = false ∧
      (10000 : Int) ∉ mapKeys (controlStep server2 10000 0
        (.recv ⟨MessageTypeDisconnect, "203.0.113.5:40000-17", none⟩ true)).1.clients ∧
      (controlStep server2 10000 0
        (.recv ⟨MessageTypeDisconnect, "203.0.113.5:40000-17", none⟩ true)).1.availablePorts
          = [10000] ∧
      1 ∈ (controlStep server2 10000 0
        (.recv ⟨MessageTypeDisconnect, "203.0.113.5:40000-17", none⟩ true)).1.closedConns := by
  decide

/-- C9, amended: when the control reader of a session registered on `port` receives a
`disconnect` message, with or without `user_id`, it runs `cleanupClient(port, nil)` and stops:
the port leaves the clients map and is appended to the free pool, the control socket and every
user socket of the session are closed, and no listener is closed. -/
theorem disconnect_always_tears_down (s : RelayServer) (port : Int) (ptr : Nat)
    (client : clientConnection) (uid : String) (data : Option (List Byte)) (ioOk : Bool)
    (hget : mapGet port s.clients = some ptr) (hptr : s.heap[ptr]? = some client) :
    controlStep s port ptr
        (.recv { Type_ := MessageTypeDisconnect, UserID := uid, Data := data } ioOk)
      = (cleanupClient s port none, false) ∧
      (cleanupClient s port none).clients = mapDelete port s.clients ∧
      port ∉ mapKeys (cleanupClient s port none).clients ∧
      (cleanupClient s port none).availablePorts = s.availablePorts ++ [port] ∧
      client.conn ∈ (cleanupClient s port none).closedConns ∧
      (∀ u k, (u, k) ∈ client.userConns → k ∈ (cleanupClient s port none).closedConns) ∧
      (cleanupClient s port none).closedListeners = s.closedListeners := by
  refine ⟨controlStep_disconnect s port ptr uid data ioOk, ?_, ?_, ?_, ?_, ?_,
    cleanupClient_nil_closedListeners s port⟩
  · rw [cleanupClient_registered s port ptr client hget hptr]; rfl
  · rw [cleanupClient_registered s port ptr client hget hptr]
    show port ∉ mapKeys (mapDelete port s.clients)
    rw [mem_mapKeys_mapDelete]
    exact fun h => h.2 rfl
  · rw [cleanupClient_registered s port ptr client hget hptr]
    simp [releasePort, closeConn]
  · rw [cleanupClient_registered s port ptr client hget hptr]
    show client.conn ∈ (closeAll (closeConn s client.conn) client.userConns).closedConns
    exact mem_closedConns_closeAll _ _ _ ((mem_closeHandle _ _ _).2 (Or.inl rfl))
  · intro u k hk
    rw [cleanupClient_registered s port ptr client hget hptr]
    show k ∈ (closeAll (closeConn s client.conn) client.userConns).closedConns
    exact mem_closeAll_of_mem client.userConns u k hk _

/-- Witness of C9 (amended) on `server2` and a `disconnect` carrying a user id. -/
theorem disconnect_always_tears_down_witness :
    mapGet 10000 server2.clients = some 0 ∧
      server2.heap[0]? = some ⟨1, "localhost", 3000, [("203.0.113.5:40000-17", 9)]⟩ ∧
      (controlStep server2 10000 0
          (.recv { Type_ := MessageTypeDisconnect, UserID := "203.0.113.5:40000-17" } true)
        = (cleanupClient server2 10000 none, false) ∧
        (cleanupClient server2 10000 none).clients = mapDelete 10000 server2.clients ∧
        (10000 : Int) ∉ mapKeys (cleanupClient server2 10000 none).clients ∧
        (cleanupClient server2 10000 none).availablePorts = server2.availablePorts ++ [10000] ∧
        1 ∈ (cleanupClient server2 10000 none).closedConns ∧
        (∀ u k, (u, k) ∈ [("203.0.113.5:40000-17", (9 : Conn))] →
          k ∈ (cleanupClient server2 10000 none).closedConns) ∧
        (cleanupClient server2 10000 none).closedListeners = server2.closedListeners) :=
  ⟨by decide, by decide,
    disconnect_always_tears_down server2 10000 0 ⟨1, "localhost", 3000, [("203.0.113.5:40000-17", 9)]⟩
      "203.0.113.5:40000-17" none true (by decide) (by decide)⟩

/-- C10, as stated, fails: on `server2` a `data` record without `user_id` (and one without
`data`) is skipped, the state is unchanged, the session stays registered and the reader goes
on; on `client1` a `connect` and a `data` record without `user_id` are skipped, the client is
unchanged and not shut down, and the relay reader goes on. -/
theorem record_missing_field_is_skipped :
    controlStep server2 10000 0 (.recv { Type_ := MessageTypeData, Data := some [1] } true)
        = (server2, true) ∧
      controlStep server2 10000 0
          (.recv { Type_ := MessageTypeData, UserID := "203.0.113.5:40000-17" } true)
        = (server2, true) ∧
      (10000 : Int) ∈ mapKeys server2.clients ∧ 1 ∉ server2.closedConns ∧
      TunnelClient.relayStep client1 (.recv { Type_ := MessageTypeConnect } true)
        = .ok (client1, true) ∧
      TunnelClient.relayStep client1 (.recv { Type_ := MessageTypeData, Data := some [1] } true)
        = .ok (client1, true) ∧
      client1.shutdownClosed = false ∧ 1 ∉ client1.closedConns := by
  decide

/-- C10, amended: a control record with a required field missing is skipped with the session
left running. When the control reader of the server receives a `data` message lacking
`user_id` or `data`, the server state is unchanged (the session is not cleaned up) and the
reader goes on to the next record; when the relay reader of a client that is not shut down
receives a `connect` or `data` message lacking `user_id`, or a `data` message lacking `data`,
the client state is unchanged (the client does not shut down) and the reader goes on to the
next record. -/
theorem missing_field_skipped (s : RelayServer) (port : Int) (client : Nat)
    (c : TunnelClient) (msg : ClientMessage) (ioOk : Bool) (restS : List CtrlEvent)
    (restC : List TunnelClient.RelayEvent) (hrun : c.shutdownClosed = false)
    (hmissing : msg.UserID = "" ∨ msg.Data = none) (hdata : msg.Type_ = MessageTypeData) :
    controlStep s port client (.recv msg ioOk) = (s, true) ∧
      handleClientCommunication s port client (.recv msg ioOk :: restS)
        = handleClientCommunication s port client restS ∧
      TunnelClient.relayStep c (.recv msg ioOk) = .ok (c, true) ∧
      TunnelClient.handleRelayMessages c (.recv msg ioOk :: restC)
        = TunnelClient.handleRelayMessages c restC ∧
      (∀ data,
        TunnelClient.relayStep c (.recv ⟨MessageTypeConnect, "", data⟩ ioOk) = .ok (c, true) ∧
        TunnelClient.handleRelayMessages c (.recv ⟨MessageTypeConnect, "", data⟩ ioOk :: restC)
          = TunnelClient.handleRelayMessages c restC) := by
  have h1 : ¬ (MessageTypeData = MessageTypeConnect) := by decide
  have hS : controlStep s port client (.recv msg ioOk) = (s, true) := by
    simp [controlStep, hdata, hmissing]
  have hC : TunnelClient.relayStep c (.recv msg ioOk) = .ok (c, true) := by
    simp [TunnelClient.relayStep, hrun, hdata, h1, hmissing]
  have hK : ∀ data,
      TunnelClient.relayStep c (.recv ⟨MessageTypeConnect, "", data⟩ ioOk) = .ok (c, true) := by
    intro data
    simp [TunnelClient.relayStep, hrun]
  refine ⟨hS, ?_, hC, ?_, fun data => ⟨hK data, ?_⟩⟩
  · simp only [handleClientCommunication, hS]
  · simp only [TunnelClient.handleRelayMessages, hC]
  · simp only [TunnelClient.handleRelayMessages, hK data]

/-- Witness of C10 (amended): a `data` record without `user_id`, followed by a `ping` on
`server2` and by a `pong` on `client1`. -/
theorem missing_field_skipped_witness :
    client1.shutdownClosed = false ∧
      ((⟨MessageTypeData, "", some [1]⟩ : ClientMessage).UserID = "" ∨
        (⟨MessageTypeData, "", some [1]⟩ : ClientMessage).Data = none) ∧
      (⟨MessageTypeData, "", some [1]⟩ : ClientMessage).Type_ = MessageTypeData ∧
      (controlStep server2 10000 0 (.recv ⟨MessageTypeData, "", some [1]⟩ true)
          = (server2, true) ∧
        handleClientCommunication server2 10000 0
            (.recv ⟨MessageTypeData, "", some [1]⟩ true :: [.recv ⟨MessageTypePing, "", none⟩ true])
          = handleClientCommunication server2 10000 0 [.recv ⟨MessageTypePing, "", none⟩ true] ∧
        TunnelClient.relayStep client1 (.recv ⟨MessageTypeData, "", some [1]⟩ true)
          = .ok (client1, true) ∧
        TunnelClient.handleRelayMessages client1
            (.recv ⟨MessageTypeData, "", some [1]⟩ true :: [.recv ⟨MessageTypePong, "", none⟩ true])
          = TunnelClient.handleRelayMessages client1 [.recv ⟨MessageTypePong, "", none⟩ true] ∧
        (∀ data,
          TunnelClient.relayStep client1 (.recv ⟨MessageTypeConnect, "", data⟩ true)
            = .ok (client1, true) ∧
          TunnelClient.handleRelayMessages client1
              (.recv ⟨MessageTypeConnect, "", data⟩ true :: [.recv ⟨MessageTypePong, "", none⟩ true])
            = TunnelClient.handleRelayMessages client1 [.recv ⟨MessageTypePong, "", none⟩ true])) :=
  ⟨rfl, Or.inl rfl, rfl,
    missing_field_skipped server2 10000 0 client1 ⟨MessageTypeData, "", some [1]⟩ true
      [.recv ⟨MessageTypePing, "", none⟩ true] [.recv ⟨MessageTypePong, "", none⟩ true]
      rfl (Or.inl rfl) rfl⟩

/-- C11, as stated, fails: on `server2` a `ping` whose `pong` cannot be written leaves the
session in place. The reader goes on, port 10000 is still a key of the clients map and not in
the free pool, and the control socket 1 is not closed. -/
theorem ping_write_failure_keeps_session :
    (controlStep server2 10000 0 (.recv { Type_ := MessageTypePing } false)).2 = true ∧
      (10000 : Int) ∈ mapKeys
        (controlStep server2 10000 0 (.recv { Type_ := MessageTypePing } false)).1.clients ∧
      (10000 : Int) ∉
        (controlStep server2 10000 0 (.recv { Type_ := MessageTypePing } false)).1.availablePorts ∧
      1 ∉ (controlStep server2 10000 0 (.recv { Type_ := MessageTypePing } false)).1.closedConns ∧
      (controlStep server2 10000 0 (.recv { Type_ := MessageTypePing } false)).1
        = (controlStep server2 10000 0 (.recv { Type_ := MessageTypePing } true)).1 := by
  decide

/-- C11, amended: for every `ping` received by the control reader of a session, exactly one
`pong` is handed to the control socket of that session and nothing else changes; this also
holds when writing the `pong` fails (the error is only logged): the clients map, the free pool
and the closed sockets are unchanged and the control reader goes on. -/
theorem ping_replies_one_pong (s : RelayServer) (port : Int) (ptr : Nat)
    (client : clientConnection) (uid : String) (data : Option (List Byte)) (ioOk : Bool)
    (hptr : s.heap[ptr]? = some client) :
    controlStep s port ptr (.recv { Type_ := MessageTypePing, UserID := uid, Data := data } ioOk)
        = ({ s with sent := s.sent ++ [(client.conn, .message { Type_ := MessageTypePong })] },
            true) ∧
      (controlStep s port ptr
        (.recv { Type_ := MessageTypePing, UserID := uid, Data := data } ioOk)).1.clients
          = s.clients ∧
      (controlStep s port ptr
        (.recv { Type_ := MessageTypePing, UserID := uid, Data := data } ioOk)).1.availablePorts
          = s.availablePorts ∧
      (controlStep s port ptr
        (.recv { Type_ := MessageTypePing, UserID := uid, Data := data } ioOk)).1.closedConns
          = s.closedConns := by
  rw [controlStep_ping]
  refine ⟨?_, rfl, rfl, rfl⟩
  simp [encode, connOf, hptr]

/-- Witness of C11 (amended): a `ping` on `server2` whose `pong` cannot be written. -/
theorem ping_replies_one_pong_witness :
    server2.heap[0]? = some ⟨1, "localhost", 3000, [("203.0.113.5:40000-17", 9)]⟩ ∧
      (controlStep server2 10000 0 (.recv { Type_ := MessageTypePing } false)
          = ({ server2 with sent := server2.sent ++ [(1, .message { Type_ := MessageTypePong })] },
              true) ∧
        (controlStep server2 10000 0 (.recv { Type_ := MessageTypePing } false)).1.clients
          = server2.clients ∧
        (controlStep server2 10000 0 (.recv { Type_ := MessageTypePing } false)).1.availablePorts
          = server2.availablePorts ∧
        (controlStep server2 10000 0 (.recv { Type_ := MessageTypePing } false)).1.closedConns
          = server2.closedConns) :=
  ⟨by decide, ping_replies_one_pong server2 10000 0
    ⟨1, "localhost", 3000, [("203.0.113.5:40000-17", 9)]⟩ "" none false (by decide)⟩

/-! ## Local reader and shutdown of the client -/

/-- C12, as stated, fails: on `client2` the local reader of user id "203.0.113.5:40000-17"
(socket 4) at EOF closes socket 4 and removes the user id, keeps the entry of the other user id
and the session, but hands no record at all to the control socket: no `disconnect` is
emitted. -/
theorem local_reader_emits_no_disconnect :
    TunnelClient.localReaderStep client2 "203.0.113.5:40000-17" 4 (.err true)
        = .ok ({ client2 with closedConns := [4], userConns := [("198.51.100.7:51000-23", 5)] },
            false) ∧
      client2.sent = [] ∧
      (∀ eof, ∀ c1 b,
        TunnelClient.localReaderStep client2 "203.0.113.5:40000-17" 4 (.err eof) = .ok (c1, b) →
          c1.sent = [] ∧
            (1, Packet.message ⟨MessageTypeDisconnect, "203.0.113.5:40000-17", none⟩)
              ∉ c1.sent) := by
  refine ⟨by decide, by decide, ?_⟩
  intro eof c1 b h
  rw [TunnelClient.localReaderStep_err client2 "203.0.113.5:40000-17" 4 eof rfl (by decide)] at h
  cases h
  exact ⟨by decide, by decide⟩

/-- C12, amended: when the local reader of a client that is not shut down observes EOF or a
read error for a user id that maps to `localConn`, it closes `localConn`, removes the user id
from the table and returns; nothing is handed to the control socket (no `disconnect` is
emitted), the entry of every other user id is unchanged, and the session keeps running (the
shutdown signal, the keepalive and the control socket are untouched). -/
theorem local_reader_closes_user (c : TunnelClient) (userID : String) (localConn : Conn)
    (eof : Bool) (hrun : c.shutdownClosed = false)
    (hget : mapGet userID c.userConns = some localConn) :
    ∃ c1, TunnelClient.localReaderStep c userID localConn (.err eof) = .ok (c1, false) ∧
      c1.closedConns = closeHandle localConn c.closedConns ∧
      localConn ∈ c1.closedConns ∧
      mapGet userID c1.userConns = none ∧
      (∀ u, u ≠ userID → mapGet u c1.userConns = mapGet u c.userConns) ∧
      c1.sent = c.sent ∧
      c1.shutdownClosed = false ∧ c1.tickerStopped = c.tickerStopped ∧ c1.conn = c.conn := by
  refine ⟨_, TunnelClient.localReaderStep_err c userID localConn eof hrun hget, rfl, ?_, ?_, ?_,
    rfl, hrun, rfl, rfl⟩
  · exact (mem_closeHandle localConn localConn c.closedConns).2 (Or.inl rfl)
  · exact mapGet_mapDelete_self userID c.userConns
  · intro u hu
    exact mapGet_mapDelete_ne hu c.userConns

/-- Witness of C12 (amended) on `client2` and its first user connection. -/
theorem local_reader_closes_user_witness :
    client2.shutdownClosed = false ∧
      mapGet "203.0.113.5:40000-17" client2.userConns = some 4 ∧
      ∃ c1, TunnelClient.localReaderStep client2 "203.0.113.5:40000-17" 4 (.err true)
          = .ok (c1, false) ∧
        c1.closedConns = closeHandle 4 client2.closedConns ∧
        4 ∈ c1.closedConns ∧
        mapGet "203.0.113.5:40000-17" c1.userConns = none ∧
        (∀ u, u ≠ "203.0.113.5:40000-17" → mapGet u c1.userConns = mapGet u client2.userConns) ∧
        c1.sent = client2.sent ∧
        c1.shutdownClosed = false ∧ c1.tickerStopped = client2.tickerStopped ∧
        c1.conn = client2.conn :=
  ⟨rfl, by decide,
    local_reader_closes_user client2 "203.0.113.5:40000-17" 4 true rfl (by decide)⟩

/-- C13, the code at the failing input: on `client2` the relay reader that observes EOF runs
`Shutdown`, which sets the shutdown signal, stops the ticker, hands `disconnect` to the control
socket and closes the control socket and both local sockets; a second `Shutdown` on the
resulting state (the one of the signal handler) does not complete: it panics on closing the
closed channel `shutdown`. The same holds for a decode error. -/
theorem second_shutdown_panics :
    TunnelClient.Shutdown client2 = .ok client2Down ∧
      TunnelClient.relayStep client2 (.decodeErr true) = .ok (client2Down, false) ∧
      TunnelClient.relayStep client2 (.decodeErr false) = .ok (client2Down, false) ∧
      client2Down.shutdownClosed = true ∧ client2Down.tickerStopped = true ∧
      1 ∈ client2Down.closedConns ∧ 4 ∈ client2Down.closedConns ∧
      5 ∈ client2Down.closedConns ∧
      TunnelClient.Shutdown client2Down = .error "close of closed channel" := by
  decide

/-! ## User table of a session -/

/-- C14, the code at the failing input: on `server1` (session registered on port 10000, object
at address 0) the acceptor accepts socket 9 and the `connect` notification fails. The acceptor
closes socket 9, starts no user reader and goes on, but the user id stays in the user table of
the registered session, mapped to the closed socket 9. The sibling paths remove the entry:
after a failed write to the user (`controlStep`) and at the end of the user reader
(`handleUserData`) the user id is no longer in the table. -/
theorem failed_connect_leaves_closed_socket_in_table :
    NewRelayServer 5678 10000 10000 = .ok server0 ∧
      runOps server0 [ServerOp.register 1 regOk,
        ServerOp.accept 10000 7 0 (.accepted 9 "203.0.113.5:40000" 17 false)] = server3 ∧
      acceptStep server1 10000 7 0 (.accepted 9 "203.0.113.5:40000" 17 false)
        = (server3, true, none) ∧
      mapGet 10000 server3.clients = some 0 ∧
      mapGet "203.0.113.5:40000-17" (userConnsOf server3 0) = some 9 ∧
      9 ∈ server3.closedConns ∧
      9 ∉ server1.closedConns ∧
      mapGet "203.0.113.5:40000-17" (userConnsOf (controlStep server2 10000 0
        (.recv ⟨MessageTypeData, "203.0.113.5:40000-17", some [1]⟩ false)).1 0) = none ∧
      mapGet "203.0.113.5:40000-17" (userConnsOf
        (handleUserData server2 10000 0 "203.0.113.5:40000-17" 9 [.err]) 0) = none := by
  decide

end Tun
